import Mathlib

set_option autoImplicit false

/-!
Verification of the meeting-minutes pipeline against its specification.

The Python sources are embedded shallowly:
* strings are modelled as `List Char` where character-level reasoning is
  needed, and as `String` elsewhere;
* each remote-service call is a parameter of type `Except String α`
  (`Except.error e` models the call raising an exception with message `e`);
* machine floats appear only in the duration-threshold comparison
  `len(audio) / 1000.0 >= 60`; since `len(audio)` is an integer number of
  milliseconds, that comparison is exact and is modelled over `ℚ`.
-/

/-! ### google_docs_client.py -/

/-- One pass of Python `s.replace(pat, '')`: remove each leftmost
non-overlapping occurrence of `pat`, scanning left to right and resuming
after a removed occurrence.  `fuel` bounds the recursion; callers pass the
length of the string, which suffices for any non-empty pattern. -/
def replaceRemoveFuel (pat : List Char) : Nat → List Char → List Char
  | 0, s => s
  | _ + 1, [] => []
  | fuel + 1, c :: rest =>
    if pat.isPrefixOf (c :: rest) then
      replaceRemoveFuel pat fuel (List.drop pat.length (c :: rest))
    else
      c :: replaceRemoveFuel pat fuel rest

/-- Python `s.replace(pat, '')` for a non-empty pattern. -/
def pyReplaceRemove (s pat : List Char) : List Char :=
  replaceRemoveFuel pat s.length s

/-- The Markdown-to-plain-text projection of
`GoogleDocsClient.update_document_content`:
`content.replace('# ', '').replace('## ', '').replace('### ', '')`. -/
def update_document_content_text (content : List Char) : List Char :=
  pyReplaceRemove (pyReplaceRemove (pyReplaceRemove content "# ".toList) "## ".toList) "### ".toList

/-- `GoogleDocsClient.get_document_url`: a pure URL template over the id. -/
def get_document_url (document_id : String) : String :=
  "https://docs.google.com/document/d/" ++ document_id

/-! ### slack_client.py -/

/-- Python truthiness of an optional string (`None` and `""` are falsy). -/
def truthy : Option String → Bool
  | none => false
  | some s => s ≠ ""

/-- The observable effect of one `SlackClient.send_message` call. -/
inductive SendAction where
  | webhookPost (message : String)
  | botPost (channel message : String)
  | raiseNoConfig
deriving DecidableEq

/-- `SlackClient.send_message`: webhook branch if `self.webhook_url` is
truthy, else the bot path if `self.client` (present iff `bot_token` is
truthy) and `channel` are truthy, else raise `ValueError`. -/
def send_message (webhook_url bot_token : Option String) (message : String)
    (channel : Option String) : SendAction :=
  if truthy webhook_url then
    SendAction.webhookPost message
  else if truthy bot_token && truthy channel then
    SendAction.botPost (channel.getD "") message
  else
    SendAction.raiseNoConfig

/-! ### Claim C1 -/

/-- Claim C1, as stated, is false: the heading-stripping projection applied
to `"# Title\n## Sub"` does not return `"Title\nSub"`.  The first
`replace('# ', '')` also consumes the `'# '` substring inside `'## '`. -/
theorem c1_strip_counterexample :
    update_document_content_text "# Title\n## Sub".toList ≠ "Title\nSub".toList := by
  decide

/-- Claim C1 (amended): on `"# Title\n## Sub"` the projection yields
`"Title\n#Sub"` — the leading `'# '` is removed, and inside `"## Sub"` the
first replacement removes the `'# '` formed by the second `'#'` and the
space, leaving a stray `'#'` before `Sub`. -/
theorem c1_strip_amended :
    update_document_content_text "# Title\n## Sub".toList = "Title\n#Sub".toList := by
  decide

/-! ### Claim C8 -/

/-- Claim C8: `get_document_url` is a pure deterministic template of the
document id: the result is exactly the fixed prefix
`https://docs.google.com/document/d/` followed by the id, and two ids give
the same URL exactly when they are equal. -/
theorem c8_document_url_template :
    (∀ i : String,
      (get_document_url i).data = "https://docs.google.com/document/d/".data ++ i.data) ∧
    (∀ a b : String, get_document_url a = get_document_url b ↔ a = b) := by
  constructor
  · intro i
    simp [get_document_url, String.data_append]
  · intro a b
    constructor
    · intro h
      have hd : ("https://docs.google.com/document/d/" : String).data ++ a.data
          = ("https://docs.google.com/document/d/" : String).data ++ b.data := by
        have := congrArg String.data h
        simpa [get_document_url, String.data_append] using this
      have : a.data = b.data := by
        exact List.append_cancel_left hd
      cases a; cases b
      exact congrArg String.mk this
    · intro h
      rw [h]

/-- Claim C8 witness: the theorem applied at the concrete id `"abc"`. -/
theorem c8_document_url_template_witness :
    (get_document_url "abc").data = "https://docs.google.com/document/d/".data ++ "abc".data :=
  c8_document_url_template.1 "abc"

/-! ### Claim C7 -/

/-- Claim C7: `send_message` raises (without attempting delivery) exactly
when no webhook URL is configured and there is no bot-token client paired
with a truthy channel; and whenever a webhook URL is configured, delivery
uses the webhook, regardless of the channel argument. -/
theorem c7_notifier_config (w b : Option String) (m : String) (c : Option String) :
    (send_message w b m c = SendAction.raiseNoConfig ↔
      truthy w = false ∧ (truthy b = false ∨ truthy c = false)) ∧
    (truthy w = true → send_message w b m c = SendAction.webhookPost m) := by
  cases hw : truthy w <;> cases hb : truthy b <;> cases hc : truthy c <;>
    simp [send_message, hw, hb, hc]

/-- Claim C7 witness: with a configured webhook and no channel, delivery
goes through the webhook; with nothing configured, the call raises. -/
theorem c7_notifier_config_witness :
    send_message (some "https://hooks.example/x") none "hello" none =
      SendAction.webhookPost "hello" ∧
    send_message none none "hello" none = SendAction.raiseNoConfig :=
  ⟨(c7_notifier_config (some "https://hooks.example/x") none "hello" none).2 (by decide),
   (c7_notifier_config none none "hello" none).1.mpr (by decide)⟩

/-! ### Claim C10 -/

/-- Claim C10: when a webhook URL is configured (truthy), `send_message`
always delivers via the webhook and never invokes the bot-token client,
for every message, bot token and channel argument. -/
theorem c10_webhook_priority (w b : Option String) (m : String) (c : Option String)
    (hw : truthy w = true) :
    send_message w b m c = SendAction.webhookPost m := by
  simp [send_message, hw]

/-- Claim C10 witness: with both a webhook and a bot token configured and a
channel supplied, the webhook is still used. -/
theorem c10_webhook_priority_witness :
    send_message (some "https://hooks.example/y") (some "xoxb-token") "msg" (some "#general") =
      SendAction.webhookPost "msg" :=
  c10_webhook_priority (some "https://hooks.example/y") (some "xoxb-token") "msg"
    (some "#general") (by decide)

/-! ### Routing of transcription (api/index.py lines 78-84, src/main.py lines 57-64) -/

/-- Which transcription entry point a run takes. -/
inductive TranscribeRoute where
  | longChunked
  | shortSingle
deriving DecidableEq

/-- The routing comparison `duration_seconds >= 60` with
`duration_seconds = len(audio) / 1000.0`.  `duration_ms` is pydub's
`len(audio)`, an integer number of milliseconds; the float division is
modelled exactly over `ℚ` (for integer millisecond counts the rounded
float comparison against the representable constant 60.0 agrees with the
exact rational comparison, the nearest crossover inputs 59999 and 60000
being far more than an ulp away from 60). -/
def route_for_duration (duration_ms : ℕ) : TranscribeRoute :=
  if (60 : ℚ) ≤ (duration_ms : ℚ) / 1000 then
    TranscribeRoute.longChunked
  else
    TranscribeRoute.shortSingle

/-! ### Claim C4 -/

/-- Claim C4: the threshold is inclusive on the long side — exactly 60.0
seconds (60000 ms) routes to `transcribe_long_audio`, and every duration
strictly below 60 seconds routes to `transcribe_file`; in particular
59.999 s (59999 ms) takes the short path. -/
theorem c4_threshold_routing :
    route_for_duration 60000 = TranscribeRoute.longChunked ∧
    (∀ d : ℕ, (d : ℚ) / 1000 < 60 → route_for_duration d = TranscribeRoute.shortSingle) ∧
    route_for_duration 59999 = TranscribeRoute.shortSingle := by
  refine ⟨?_, ?_, ?_⟩
  · norm_num [route_for_duration]
  · intro d h
    rw [route_for_duration, if_neg (not_le.mpr h)]
  · norm_num [route_for_duration]

/-- Claim C4 witness: the universally quantified short-path clause applied
at the concrete duration 59999 ms = 59.999 s. -/
theorem c4_threshold_routing_witness :
    route_for_duration 59999 = TranscribeRoute.shortSingle :=
  c4_threshold_routing.2.1 59999 (by norm_num)

/-! ### transcriber.py: transcribe_long_audio accumulation and trimming -/

/-- Python whitespace for `str.strip` (ASCII part; the transcripts the code
joins are separated only by `'\n'`). -/
def isPySpace (c : Char) : Bool :=
  c = ' ' || c = '\t' || c = '\n' || c = '\r' || c = '\x0b' || c = '\x0c'

/-- Python `str.rstrip()`: drop trailing whitespace. -/
def rstrip : List Char → List Char
  | [] => []
  | c :: rest =>
    match rstrip rest with
    | [] => if isPySpace c then [] else [c]
    | r => c :: r

/-- Python `str.strip()`: drop leading and trailing whitespace. -/
def pyStrip (s : List Char) : List Char :=
  (rstrip s).dropWhile isPySpace

/-- The accumulation loop of `transcribe_long_audio`, over the per-chunk
transcription outcomes (`some t`: `transcribe_file` returned `t`;
`none`: it raised, which the code logs and skips): `transcript` starts
empty, each success appends `chunk_transcript + "\n"`, and the final
result is `transcript.strip()`. -/
def transcribe_long_audio (chunkOutcomes : List (Option (List Char))) : List Char :=
  pyStrip (chunkOutcomes.foldl
    (fun transcript o =>
      match o with
      | some t => transcript ++ t ++ ['\n']
      | none => transcript)
    [])

/-- Right-fold form of the accumulation loop: each successful chunk
contributes its text followed by one `'\n'`. -/
def chunkConcat : List (Option (List Char)) → List Char
  | [] => []
  | some t :: rest => t ++ '\n' :: chunkConcat rest
  | none :: rest => chunkConcat rest

/-- Newline-joining (Python `"\n".join`), the spec's description of the
transcript: chunk transcripts concatenated in order with `'\n'` between
consecutive ones. -/
def joinNl : List (List Char) → List Char
  | [] => []
  | [t] => t
  | t :: u :: rest => t ++ '\n' :: joinNl (u :: rest)

theorem foldl_eq_chunkConcat (os : List (Option (List Char))) :
    ∀ acc : List Char,
      os.foldl
        (fun transcript o =>
          match o with
          | some t => transcript ++ t ++ ['\n']
          | none => transcript)
        acc = acc ++ chunkConcat os := by
  induction os with
  | nil => intro acc; simp [chunkConcat]
  | cons o rest ih =>
      intro acc
      cases o with
      | some t =>
          rw [List.foldl_cons, ih]
          simp [chunkConcat]
      | none =>
          rw [List.foldl_cons, ih]
          rfl

theorem chunkConcat_eq_filterMap (os : List (Option (List Char))) :
    chunkConcat os = chunkConcat ((os.filterMap id).map some) := by
  induction os with
  | nil => rfl
  | cons o rest ih =>
      cases o with
      | some t => simp [chunkConcat, ih]
      | none => simp [chunkConcat, ih]

theorem chunkConcat_somes_eq_joinNl (ts : List (List Char)) (h : ts ≠ []) :
    chunkConcat (ts.map some) = joinNl ts ++ ['\n'] := by
  induction ts with
  | nil => exact absurd rfl h
  | cons t rest ih =>
      cases rest with
      | nil => simp [chunkConcat, joinNl]
      | cons u rest' =>
          have ih' := ih (by simp)
          calc chunkConcat (List.map some (t :: u :: rest'))
              = t ++ '\n' :: chunkConcat (List.map some (u :: rest')) := rfl
            _ = t ++ '\n' :: (joinNl (u :: rest') ++ ['\n']) := by rw [ih']
            _ = (t ++ '\n' :: joinNl (u :: rest')) ++ ['\n'] := by simp
            _ = joinNl (t :: u :: rest') ++ ['\n'] := rfl

theorem rstrip_append_space (x : List Char) (c : Char) (hc : isPySpace c = true) :
    rstrip (x ++ [c]) = rstrip x := by
  induction x with
  | nil => simp [rstrip, hc]
  | cons a x ih => simp [rstrip, ih]

theorem pyStrip_append_newline (x : List Char) :
    pyStrip (x ++ ['\n']) = pyStrip x := by
  unfold pyStrip
  rw [rstrip_append_space x '\n' (by decide)]

theorem length_filterMap_id_add_countP (os : List (Option (List Char))) :
    (os.filterMap id).length + os.countP (fun o => o.isNone) = os.length := by
  induction os with
  | nil => rfl
  | cons o rest ih =>
      cases o with
      | some t => simp [List.countP_cons, ih]; omega
      | none => simp [List.countP_cons, ih]; omega

/-! ### Claim C2 -/

/-- Claim C2: if, among the chunk outcomes, exactly one transcription
raises and the rest succeed, `transcribe_long_audio` still returns (the
loop catches the exception), and the result is exactly the successful
chunk transcripts in original chunk order, newline-joined and trimmed —
the failing chunk contributes no text and no extra newline.  In the model
`outcomes.filterMap id` is precisely the successful transcripts in
original order. -/
theorem c2_chunk_failure_tolerance (outcomes : List (Option (List Char)))
    (h : outcomes.countP (fun o => o.isNone) = 1) :
    transcribe_long_audio outcomes = pyStrip (joinNl (outcomes.filterMap id)) ∧
    (outcomes.filterMap id).length + 1 = outcomes.length := by
  constructor
  · unfold transcribe_long_audio
    rw [foldl_eq_chunkConcat, List.nil_append, chunkConcat_eq_filterMap]
    cases hts : outcomes.filterMap id with
    | nil => simp [chunkConcat, joinNl]
    | cons t rest =>
        rw [chunkConcat_somes_eq_joinNl _ (by simp), pyStrip_append_newline]
  · have := length_filterMap_id_add_countP outcomes
    omega

/-- Claim C2 witness: three chunks with the middle one failing — the result
is the join-and-trim of the two successful transcripts, and exactly one
chunk was lost. -/
theorem c2_chunk_failure_tolerance_witness :
    transcribe_long_audio [some "a".toList, none, some "b".toList] =
      pyStrip (joinNl ([some "a".toList, none, some "b".toList].filterMap id)) ∧
    ([some "a".toList, none, some "b".toList].filterMap id).length + 1 = 3 := by
  have h := c2_chunk_failure_tolerance [some "a".toList, none, some "b".toList] (by decide)
  exact ⟨h.1, h.2⟩

/-! ### transcriber.py: the chunking loop of transcribe_long_audio -/

/-- `chunk_duration_ms = 50000` (transcriber.py line 87). -/
def chunk_duration_ms : ℕ := 50000

/-- Python `range(start, stop, 50000)`, the iteration of the chunking loop,
with an explicit structural fuel (one unit per produced element; callers
pass `stop`, which bounds the element count since the step is positive). -/
def rangeStepFuel (stop : ℕ) : ℕ → ℕ → List ℕ
  | _, 0 => []
  | start, fuel + 1 =>
    if start < stop then
      start :: rangeStepFuel stop (start + chunk_duration_ms) fuel
    else
      []

/-- `range(0, len(audio), chunk_duration_ms)` for an audio of `stop` ms. -/
def pyRangeChunks (stop : ℕ) : List ℕ :=
  rangeStepFuel stop 0 stop

/-- The chunk list built by `for i in range(0, len(audio), chunk_duration_ms):
chunks.append(audio[i:i + chunk_duration_ms])`; each chunk is the time
interval it covers — pydub slicing by milliseconds, clamped at the end of
the audio. -/
def audioChunks (D : ℕ) : List (ℕ × ℕ) :=
  (pyRangeChunks D).map (fun i => (i, min (i + chunk_duration_ms) D))

/-- Duration of a chunk interval. -/
def chunkLen (c : ℕ × ℕ) : ℕ :=
  c.2 - c.1

/-- Ceiling division on naturals, `⌈a / b⌉`. -/
def natCeilDiv (a b : ℕ) : ℕ :=
  (a + b - 1) / b

theorem rangeStepFuel_closed (fuel : ℕ) :
    ∀ start stop : ℕ, stop - start ≤ fuel →
      rangeStepFuel stop start fuel =
        (List.range (natCeilDiv (stop - start) chunk_duration_ms)).map
          (fun k => start + k * chunk_duration_ms) := by
  induction fuel with
  | zero =>
      intro start stop h
      have h0 : stop - start = 0 := by omega
      rw [h0]
      rfl
  | succ fuel ih =>
      intro start stop h
      simp only [rangeStepFuel]
      by_cases hlt : start < stop
      · have hfuel : stop - (start + chunk_duration_ms) ≤ fuel := by
          simp only [chunk_duration_ms]
          omega
        rw [if_pos hlt, ih (start + chunk_duration_ms) stop hfuel]
        have hceil : natCeilDiv (stop - start) chunk_duration_ms
            = natCeilDiv (stop - (start + chunk_duration_ms)) chunk_duration_ms + 1 := by
          simp only [natCeilDiv, chunk_duration_ms]
          omega
        rw [hceil, List.range_succ_eq_map, List.map_cons, List.map_map]
        have hfun : ((fun k => start + k * chunk_duration_ms) ∘ Nat.succ)
            = fun k => start + chunk_duration_ms + k * chunk_duration_ms := by
          funext k
          simp only [Function.comp_apply, Nat.succ_eq_add_one]
          ring
        rw [hfun]
        simp
      · rw [if_neg hlt]
        have h0 : stop - start = 0 := by omega
        rw [h0]
        rfl

theorem pyRangeChunks_closed (D : ℕ) :
    pyRangeChunks D = (List.range (natCeilDiv D chunk_duration_ms)).map
      (fun k => k * chunk_duration_ms) := by
  unfold pyRangeChunks
  rw [rangeStepFuel_closed D 0 D (by omega)]
  simp

theorem audioChunks_closed (D : ℕ) :
    audioChunks D = (List.range (natCeilDiv D chunk_duration_ms)).map
      (fun k => (k * chunk_duration_ms, min (k * chunk_duration_ms + chunk_duration_ms) D)) := by
  unfold audioChunks
  rw [pyRangeChunks_closed, List.map_map]
  rfl

theorem audioChunks_get (D k : ℕ) (h : k < (audioChunks D).length) :
    (audioChunks D).get ⟨k, h⟩ =
      (k * chunk_duration_ms, min (k * chunk_duration_ms + chunk_duration_ms) D) := by
  simp [audioChunks_closed, List.get_eq_getElem]

theorem sum_chunkLens (n : ℕ) :
    ∀ D : ℕ, n = natCeilDiv D chunk_duration_ms →
      ((List.range n).map
        (fun k => min (k * chunk_duration_ms + chunk_duration_ms) D - k * chunk_duration_ms)).sum
        = D := by
  induction n with
  | zero =>
      intro D h
      have hD : D = 0 := by
        simp only [natCeilDiv, chunk_duration_ms] at h
        omega
      simp [hD]
  | succ n ih =>
      intro D h
      have hD1 : n * chunk_duration_ms < D := by
        simp only [natCeilDiv, chunk_duration_ms] at h
        simp only [chunk_duration_ms]
        omega
      have hD2 : D ≤ (n + 1) * chunk_duration_ms := by
        simp only [natCeilDiv, chunk_duration_ms] at h
        simp only [chunk_duration_ms]
        omega
      have hmid : n = natCeilDiv (n * chunk_duration_ms) chunk_duration_ms := by
        simp only [natCeilDiv, chunk_duration_ms]
        omega
      rw [List.range_succ, List.map_append, List.sum_append]
      have hcongr :
          (List.range n).map
            (fun k => min (k * chunk_duration_ms + chunk_duration_ms) D - k * chunk_duration_ms)
          = (List.range n).map
            (fun k => min (k * chunk_duration_ms + chunk_duration_ms) (n * chunk_duration_ms)
              - k * chunk_duration_ms) := by
        apply List.map_congr_left
        intro k hk
        have hk' : k < n := List.mem_range.mp hk
        have hle : k * chunk_duration_ms + chunk_duration_ms ≤ n * chunk_duration_ms := by
          simp only [chunk_duration_ms]
          omega
        rw [min_eq_left hle, min_eq_left (le_trans hle (le_of_lt hD1))]
      rw [hcongr, ih (n * chunk_duration_ms) hmid]
      have hfn : min (n * chunk_duration_ms + chunk_duration_ms) D = D := by
        apply min_eq_right
        simp only [chunk_duration_ms] at hD2 ⊢
        omega
      simp only [List.map_cons, List.map_nil, List.sum_cons, List.sum_nil, hfn]
      simp only [chunk_duration_ms] at hD1 ⊢
      omega

/-! ### Claim C3 -/

/-- Claim C3: for every total duration `D` ms and the fixed chunk size
50000 ms, the chunking loop produces exactly `⌈D / 50000⌉` chunks (the two
inequality clauses pin that count as the exact ceiling), in original
temporal order with no gaps and no overlap (chunk `k` covers exactly
`[k·50000, min ((k+1)·50000) D)`), their durations sum exactly to `D`,
each duration is at most 50000, and every chunk except possibly the last
has duration exactly 50000. -/
theorem c3_chunking_exact_cover (D : ℕ) :
    (audioChunks D).length = natCeilDiv D chunk_duration_ms ∧
    D ≤ (audioChunks D).length * chunk_duration_ms ∧
    (audioChunks D).length * chunk_duration_ms < D + chunk_duration_ms ∧
    ((audioChunks D).map chunkLen).sum = D ∧
    (∀ c ∈ audioChunks D, chunkLen c ≤ chunk_duration_ms) ∧
    (∀ k (h : k < (audioChunks D).length),
      (audioChunks D).get ⟨k, h⟩ =
        (k * chunk_duration_ms, min (k * chunk_duration_ms + chunk_duration_ms) D)) ∧
    (∀ k (h : k < (audioChunks D).length), k + 1 < (audioChunks D).length →
      chunkLen ((audioChunks D).get ⟨k, h⟩) = chunk_duration_ms) := by
  have hlen : (audioChunks D).length = natCeilDiv D chunk_duration_ms := by
    rw [audioChunks_closed]
    simp
  refine ⟨hlen, ?_, ?_, ?_, ?_, ?_, ?_⟩
  · rw [hlen]
    simp only [natCeilDiv, chunk_duration_ms]
    omega
  · rw [hlen]
    simp only [natCeilDiv, chunk_duration_ms]
    omega
  · rw [audioChunks_closed, List.map_map]
    exact sum_chunkLens (natCeilDiv D chunk_duration_ms) D rfl
  · intro c hc
    rw [audioChunks_closed] at hc
    obtain ⟨k, _, rfl⟩ := List.mem_map.mp hc
    simp only [chunkLen, chunk_duration_ms]
    omega
  · intro k h
    exact audioChunks_get D k h
  · intro k h hk1
    rw [audioChunks_get D k h]
    rw [hlen] at hk1
    simp only [chunkLen, natCeilDiv, chunk_duration_ms] at hk1 ⊢
    omega

/-- Claim C3 witness: a 90-second audio input (90000 ms) yields exactly two
chunks, of durations 50000 ms and 40000 ms, summing to 90000 ms, the
second covering `[50000, 90000)`. -/
theorem c3_chunking_exact_cover_witness :
    ((audioChunks 90000).map chunkLen).sum = 90000 ∧
    (audioChunks 90000).length = 2 ∧
    (audioChunks 90000).get ⟨1, by decide⟩ = (50000, 90000) := by
  have h := c3_chunking_exact_cover 90000
  refine ⟨h.2.2.2.1, ?_, ?_⟩
  · rw [h.1]
    rfl
  · have hg := h.2.2.2.2.2.1 1 (by decide)
    simpa [chunk_duration_ms] using hg

/-! ### api/index.py: upload validation helpers -/

/-- The extension allow-list of `allowed_file` (api/index.py line 40). -/
def ALLOWED_EXTENSIONS : List (List Char) :=
  ["mp4".toList, "m4a".toList, "wav".toList, "mp3".toList, "flac".toList,
   "ogg".toList, "webm".toList, "txt".toList, "md".toList]

/-- `filename.rsplit('.', 1)[1]` for a filename containing a dot: the
segment after the last `'.'`. -/
def extAfterLastDot (filename : List Char) : List Char :=
  (filename.reverse.takeWhile (fun c => c != '.')).reverse

/-- `allowed_file`: `'.' in filename and filename.rsplit('.', 1)[1].lower()
in ALLOWED_EXTENSIONS`.  Python `str.lower` is modelled character-wise by
`Char.toLower`; the allow-list and the claims involve ASCII only, where
the two agree. -/
def allowed_file (filename : List Char) : Bool :=
  filename.contains '.' &&
    ALLOWED_EXTENSIONS.contains ((extAfterLastDot filename).map Char.toLower)

/-- `is_text_file`: `filename.endswith('.txt') or filename.endswith('.md')`
— a case-sensitive suffix check. -/
def is_text_file (filename : List Char) : Bool :=
  ".txt".toList.isSuffixOf filename || ".md".toList.isSuffixOf filename

/-! ### api/index.py: the pipeline orchestrator -/

/-- The mutable result dict of `process_audio_file` (api/index.py 52-61). -/
structure RunResult where
  status : String
  step : String
  transcript : Option String
  minutes : Option String
  document_url : Option String
  document_title : Option String
  slack_message : Option String
  error : Option String
deriving DecidableEq

/-- The dict literal at api/index.py lines 52-61. -/
def initRunResult : RunResult :=
  { status := "processing", step := "transcription", transcript := none,
    minutes := none, document_url := none, document_title := none,
    slack_message := none, error := none }

/-- Behaviour of the external collaborators during one run; `Except.error e`
models the corresponding call raising an exception whose `str` is `e`. -/
structure Collaborators where
  readTextFile : Except String String
  duration_ms : ℕ
  transcribeShortResult : Except String String
  transcribeLongResult : Except String String
  generate_minutes : String → Except String String
  docsSave : String → Except String String
  today : String
  sendNotify : String → String → Except String Unit

/-- The observable outcome of one `process_audio_file` run: the final
result dict, the successive values assigned to `result['step']` (the
status labels a poller can observe, in order), and whether the
`Transcriber` collaborator was constructed/called. -/
structure RunOutcome where
  result : RunResult
  stepTrace : List String
  transcriberUsed : Bool
deriving DecidableEq

/-- The `except` clause (api/index.py 117-121): status `'error'`, message
recorded; the traceback field is not modelled. -/
def errorResult (r : RunResult) (trace : List String) (used : Bool) (e : String) : RunOutcome :=
  { result := { r with status := "error", error := some e },
    stepTrace := trace, transcriberUsed := used }

/-- One assignment `result['step'] = s`. -/
def setStep (r : RunResult) (trace : List String) (s : String) : RunResult × List String :=
  ({ r with step := s }, trace ++ [s])

/-- Stages 2-4 of `process_audio_file` (api/index.py lines 88-115), entered
once a transcript has been obtained. -/
def pipelineRest (r : RunResult) (trace : List String) (used : Bool)
    (transcript : String) (env : Collaborators) : RunOutcome :=
  let (r, trace) := setStep r trace "generating_minutes"
  match env.generate_minutes transcript with
  | Except.error e => errorResult r trace used e
  | Except.ok minutes =>
    let r := { r with minutes := some minutes }
    let (r, trace) := setStep r trace "saving_to_docs"
    let document_title := "minutes_" ++ env.today
    match env.docsSave minutes with
    | Except.error e => errorResult r trace used e
    | Except.ok document_id =>
      let document_url := get_document_url document_id
      let r := { r with document_url := some document_url,
                        document_title := some document_title }
      let (r, trace) := setStep r trace "sending_slack"
      match env.sendNotify document_title document_url with
      | Except.error e => errorResult r trace used e
      | Except.ok _ =>
        let msg := "Slackに通知を送信しました: " ++ document_title
        let r := { r with slack_message := some msg }
        let r := { r with status := "completed" }
        let (r, trace) := setStep r trace "completed"
        { result := r, stepTrace := trace, transcriberUsed := used }

/-- `process_audio_file` (api/index.py lines 49-121).  The initial dict
publishes `step = 'transcription'`; both branches re-assign the
`transcription` label; the text branch reads the local file without
constructing a `Transcriber`; the audio branch constructs one and routes
on the duration threshold. -/
def process_audio_file (filename : List Char) (env : Collaborators) : RunOutcome :=
  let r := initRunResult
  let trace := ["transcription"]
  if is_text_file filename then
    let (r, trace) := setStep r trace "transcription"
    match env.readTextFile with
    | Except.error e => errorResult r trace false e
    | Except.ok transcript =>
      let r := { r with transcript := some transcript }
      pipelineRest r trace false transcript env
  else
    let (r, trace) := setStep r trace "transcription"
    match (if route_for_duration env.duration_ms = TranscribeRoute.longChunked then
            env.transcribeLongResult
          else
            env.transcribeShortResult) with
    | Except.error e => errorResult r trace true e
    | Except.ok transcript =>
      let r := { r with transcript := some transcript }
      pipelineRest r trace true transcript env

theorem pipelineRest_used (r : RunResult) (trace : List String) (used : Bool)
    (transcript : String) (env : Collaborators) :
    (pipelineRest r trace used transcript env).transcriberUsed = used := by
  unfold pipelineRest
  cases hg : env.generate_minutes transcript with
  | error e => simp [setStep, errorResult]
  | ok minutes =>
      cases hd : env.docsSave minutes with
      | error e => simp [hd, setStep, errorResult]
      | ok document_id =>
          cases hn : env.sendNotify ("minutes_" ++ env.today) (get_document_url document_id) with
          | error e => simp [hd, hn, setStep, errorResult]
          | ok u => simp [hd, hn, setStep, errorResult]

theorem pipelineRest_trace_take3 (r : RunResult) (a b : String) (used : Bool)
    (transcript : String) (env : Collaborators) :
    (pipelineRest r [a, b] used transcript env).stepTrace.take 3
      = [a, b, "generating_minutes"] := by
  unfold pipelineRest
  cases hg : env.generate_minutes transcript with
  | error e => simp [setStep, errorResult]
  | ok minutes =>
      cases hd : env.docsSave minutes with
      | error e => simp [hd, setStep, errorResult]
      | ok document_id =>
          cases hn : env.sendNotify ("minutes_" ++ env.today) (get_document_url document_id) with
          | error e => simp [hd, hn, setStep, errorResult]
          | ok u => simp [hd, hn, setStep, errorResult]

theorem pipelineRest_generate_error (r : RunResult) (trace : List String) (used : Bool)
    (transcript : String) (env : Collaborators) (e : String)
    (hgen : env.generate_minutes transcript = Except.error e) :
    (pipelineRest r trace used transcript env).result.status = "error" ∧
    (pipelineRest r trace used transcript env).result.error = some e ∧
    (pipelineRest r trace used transcript env).result.document_url = r.document_url ∧
    (pipelineRest r trace used transcript env).result.document_title = r.document_title ∧
    (pipelineRest r trace used transcript env).result.slack_message = r.slack_message := by
  unfold pipelineRest
  simp [hgen, setStep, errorResult]

/-! ### Claim C5 -/

/-- Claim C5: in every run whose first stage produced a transcript (the
text file was read, or the routed transcription call returned) and whose
summary-generation call raises with message `e`, the final record has
status `"error"` with `e` captured, and `document_url`, `document_title`
and `slack_message` are all still `none` — no stage after the failing one
executes. -/
theorem c5_generate_failure_halts (filename : List Char) (env : Collaborators) (e : String)
    (hgen : env.generate_minutes = fun _ => Except.error e)
    (h1 : (if is_text_file filename then env.readTextFile
           else if route_for_duration env.duration_ms = TranscribeRoute.longChunked then
             env.transcribeLongResult
           else env.transcribeShortResult).isOk = true) :
    (process_audio_file filename env).result.status = "error" ∧
    (process_audio_file filename env).result.error = some e ∧
    (process_audio_file filename env).result.document_url = none ∧
    (process_audio_file filename env).result.document_title = none ∧
    (process_audio_file filename env).result.slack_message = none := by
  unfold process_audio_file
  by_cases htext : is_text_file filename = true
  · rw [if_pos htext] at h1
    cases hr : env.readTextFile with
    | error e' => rw [hr] at h1; simp [Except.isOk, Except.toBool] at h1
    | ok t =>
        simp only [htext, if_true, hr, setStep, initRunResult]
        exact pipelineRest_generate_error _ _ false t env e (by rw [hgen])
  · have htext' : is_text_file filename = false := by
      cases hb : is_text_file filename
      · rfl
      · exact absurd hb htext
    rw [if_neg htext] at h1
    simp only [htext', Bool.false_eq_true, if_false]
    by_cases hroute : route_for_duration env.duration_ms = TranscribeRoute.longChunked
    · rw [if_pos hroute] at h1
      rw [if_pos hroute]
      cases hr : env.transcribeLongResult with
      | error e' => rw [hr] at h1; simp [Except.isOk, Except.toBool] at h1
      | ok t =>
          simp only [hr, setStep, initRunResult]
          exact pipelineRest_generate_error _ _ true t env e (by rw [hgen])
    · rw [if_neg hroute] at h1
      rw [if_neg hroute]
      cases hr : env.transcribeShortResult with
      | error e' => rw [hr] at h1; simp [Except.isOk, Except.toBool] at h1
      | ok t =>
          simp only [hr, setStep, initRunResult]
          exact pipelineRest_generate_error _ _ true t env e (by rw [hgen])

/-- A concrete collaborator environment used by the witnesses. -/
def envW : Collaborators :=
  { readTextFile := Except.ok "hello",
    duration_ms := 90000,
    transcribeShortResult := Except.ok "short transcript",
    transcribeLongResult := Except.ok "long transcript",
    generate_minutes := fun _ => Except.ok "minutes body",
    docsSave := fun _ => Except.ok "docid",
    today := "2025-01-01",
    sendNotify := fun _ _ => Except.ok () }

/-- Collaborators whose summary generation always raises. -/
def envGenFail : Collaborators :=
  { envW with generate_minutes := fun _ => Except.error "boom" }

/-- Claim C5 witness: a text-file run whose generation stage raises
`"boom"` ends in an error record with the later fields unset. -/
theorem c5_generate_failure_halts_witness :
    (process_audio_file "meeting.txt".toList envGenFail).result.status = "error" ∧
    (process_audio_file "meeting.txt".toList envGenFail).result.error = some "boom" ∧
    (process_audio_file "meeting.txt".toList envGenFail).result.document_url = none ∧
    (process_audio_file "meeting.txt".toList envGenFail).result.document_title = none ∧
    (process_audio_file "meeting.txt".toList envGenFail).result.slack_message = none :=
  c5_generate_failure_halts "meeting.txt".toList envGenFail "boom" rfl (by decide)

/-! ### Claim C6 -/

/-- Claim C6: for every text-file input (`is_text_file` true), the run
never uses the `Transcriber` collaborator, yet — whenever the local read
returns — the observable stage labels begin with `transcription` (twice:
the dict literal and the branch re-assignment) before advancing to
`generating_minutes`. -/
theorem c6_text_path_stage_label (filename : List Char) (env : Collaborators)
    (htext : is_text_file filename = true) :
    (process_audio_file filename env).transcriberUsed = false ∧
    (∀ s, env.readTextFile = Except.ok s →
      (process_audio_file filename env).stepTrace.take 3 =
        ["transcription", "transcription", "generating_minutes"]) := by
  constructor
  · unfold process_audio_file
    cases hr : env.readTextFile with
    | error e => simp [htext, hr, setStep, errorResult]
    | ok t => simp [htext, hr, setStep, pipelineRest_used]
  · intro s hs
    unfold process_audio_file
    simp only [htext, if_true, hs]
    exact pipelineRest_trace_take3 _ "transcription" "transcription" false s env

/-- Claim C6 witness: a `.txt` upload with a successful local read — the
transcriber is unused and the first three stage labels are as claimed. -/
theorem c6_text_path_stage_label_witness :
    (process_audio_file "meeting.txt".toList envW).transcriberUsed = false ∧
    (process_audio_file "meeting.txt".toList envW).stepTrace.take 3 =
      ["transcription", "transcription", "generating_minutes"] := by
  have h := c6_text_path_stage_label "meeting.txt".toList envW (by decide)
  exact ⟨h.1, h.2 "hello" rfl⟩

theorem takeWhile_append_of_all (p : Char → Bool) (l₁ : List Char) (c : Char) (l₂ : List Char)
    (h₁ : ∀ x ∈ l₁, p x = true) (hc : p c = false) :
    (l₁ ++ c :: l₂).takeWhile p = l₁ := by
  induction l₁ with
  | nil => simp [List.takeWhile_cons, hc]
  | cons a l ih =>
      have ha : p a = true := h₁ a (by simp)
      simp only [List.cons_append, List.takeWhile_cons, ha, if_true]
      rw [ih (fun x hx => h₁ x (by simp [hx]))]

theorem extAfterLastDot_concat (base ext : List Char) (hdot : '.' ∉ ext) :
    extAfterLastDot (base ++ '.' :: ext) = ext := by
  unfold extAfterLastDot
  have hall : ∀ x ∈ ext.reverse, (x != '.') = true := by
    intro x hx
    have hmem : x ∈ ext := List.mem_reverse.mp hx
    have hne : x ≠ '.' := fun hEq => hdot (hEq ▸ hmem)
    simp [hne]
  have hc : (('.' : Char) != '.') = false := by simp
  rw [List.reverse_append, List.reverse_cons, List.append_assoc, List.singleton_append,
    takeWhile_append_of_all _ ext.reverse '.' base.reverse hall hc, List.reverse_reverse]

/-! ### Claim C9 -/

/-- Claim C9: `allowed_file` lowercases the extension after the last dot
before checking the allow-list, while `is_text_file` is a case-sensitive
suffix check on `.txt`/`.md`; hence every filename whose last extension is
an upper- or mixed-case variant of `txt` or `md` (it lowercases into the
text extensions but is not literally one of them) passes upload validation
yet is routed to the audio transcription path, not the text path. -/
theorem c9_extension_case_mismatch (filename : List Char) (env : Collaborators)
    (hdot : filename.contains '.' = true)
    (hvariant : (extAfterLastDot filename).map Char.toLower = "txt".toList ∨
                (extAfterLastDot filename).map Char.toLower = "md".toList)
    (hnotlower₁ : extAfterLastDot filename ≠ "txt".toList)
    (hnotlower₂ : extAfterLastDot filename ≠ "md".toList) :
    allowed_file filename = true ∧ is_text_file filename = false ∧
    (process_audio_file filename env).transcriberUsed = true := by
  have hallow : allowed_file filename = true := by
    unfold allowed_file
    rw [hdot]
    rcases hvariant with h | h <;> rw [h] <;> decide
  have hnotTxt : ".txt".toList.isSuffixOf filename = false := by
    cases hsuf : ".txt".toList.isSuffixOf filename with
    | false => rfl
    | true =>
        exfalso
        obtain ⟨t, ht⟩ := List.isSuffixOf_iff_suffix.mp hsuf
        apply hnotlower₁
        rw [← ht, show ".txt".toList = '.' :: "txt".toList from rfl]
        exact extAfterLastDot_concat t "txt".toList (by decide)
  have hnotMd : ".md".toList.isSuffixOf filename = false := by
    cases hsuf : ".md".toList.isSuffixOf filename with
    | false => rfl
    | true =>
        exfalso
        obtain ⟨t, ht⟩ := List.isSuffixOf_iff_suffix.mp hsuf
        apply hnotlower₂
        rw [← ht, show ".md".toList = '.' :: "md".toList from rfl]
        exact extAfterLastDot_concat t "md".toList (by decide)
  have htext : is_text_file filename = false := by
    unfold is_text_file
    rw [hnotTxt, hnotMd]
    rfl
  refine ⟨hallow, htext, ?_⟩
  unfold process_audio_file
  simp only [htext, Bool.false_eq_true, if_false]
  by_cases hroute : route_for_duration env.duration_ms = TranscribeRoute.longChunked
  · rw [if_pos hroute]
    cases hr : env.transcribeLongResult with
    | error e => simp [hr, setStep, errorResult]
    | ok t => simp [hr, setStep, pipelineRest_used]
  · rw [if_neg hroute]
    cases hr : env.transcribeShortResult with
    | error e => simp [hr, setStep, errorResult]
    | ok t => simp [hr, setStep, pipelineRest_used]

/-- Claim C9 witness: `a.TXT` is accepted by `allowed_file`, rejected by
`is_text_file`, and its run uses the transcriber. -/
theorem c9_extension_case_mismatch_witness :
    allowed_file "a.TXT".toList = true ∧ is_text_file "a.TXT".toList = false ∧
    (process_audio_file "a.TXT".toList envW).transcriberUsed = true :=
  c9_extension_case_mismatch "a.TXT".toList envW (by decide)
    (Or.inl (by decide)) (by decide) (by decide)
